import Mathlib

/-!
Shallow embedding of the analytical core of the two dashboard scripts
(V1_sales_forecasting/V1_app.py and V2_multi_series_forecasting/V2_app.py).
Dates are day numbers (Nat), numeric values are rationals, pandas frames are
lists of records.  Calls into external statistical libraries (statsmodels STL,
pyod IForest, prophet) are modelled where noted; everything else is translated
from the repository source.
-/

namespace EcomForecast

/-! ### V1 Grid Builder: load_and_preprocess_data (V1_app.py lines 21-27)

The source groups the raw log by order date summing the sales values, builds
the full inclusive daily calendar between the minimum and maximum grouped
date, and reindexes onto it filling absent dates with 0. -/

/-- Sum of the values recorded on day `d` (the pandas groupby-sum at key `d`). -/
def sumOnDate (log : List (Nat × ℚ)) (d : Nat) : ℚ :=
  ((log.filter (fun r => r.1 == d)).map (fun r => r.2)).sum

/-- Minimum observed date (`daily_sales['Order Date'].min()`); 0 on an empty log
(unreachable: the caller never builds the grid from an empty log). -/
def minDate (log : List (Nat × ℚ)) : Nat :=
  match log with
  | [] => 0
  | r :: rs => (rs.map Prod.fst).foldl Nat.min r.1

/-- Maximum observed date (`daily_sales['Order Date'].max()`). -/
def maxDate (log : List (Nat × ℚ)) : Nat :=
  match log with
  | [] => 0
  | r :: rs => (rs.map Prod.fst).foldl Nat.max r.1

/-- `load_and_preprocess_data`: group by date summing values, then reindex over
the full daily range `[minDate, maxDate]` with `fill_value=0`.  On an empty log
the pandas pipeline has no valid date range; modelled as `none`. -/
def loadAndPreprocessData (log : List (Nat × ℚ)) : Option (List (Nat × ℚ)) :=
  match log with
  | [] => none
  | _ :: _ =>
      some ((List.range (maxDate log - minDate log + 1)).map
        (fun i => (minDate log + i, sumOnDate log (minDate log + i))))

/-! ### V1 anomaly detection: detect_anomalies (V1_app.py lines 31-59) -/

inductive Direction
  | Spike
  | Drop
deriving DecidableEq

/-- Arithmetic mean of a list of rationals. -/
def listMean (l : List ℚ) : ℚ := l.sum / l.length

/-- Sample variance with the pandas default ddof = 1; 0 when fewer than two
points (pandas yields NaN there, and any comparison against NaN is false,
which the caller below guards for separately). -/
def sampleVar (l : List ℚ) : ℚ :=
  if l.length ≤ 1 then 0
  else ((l.map (fun r => (r - listMean l) ^ 2)).sum) / ((l.length : ℚ) - 1)

/-- Modelled from the spec: the statsmodels STL decomposition (period 7,
robust) used at V1_app.py line 37.  Only its failure behaviour matters to the
claims below: it fails on series shorter than two full weekly cycles and on
constant series, and on success returns one residual per input point.  The
numeric residual values are external-library behaviour and are left as zeros. -/
def stlModel (ys : List ℚ) : Option (List ℚ) :=
  if ys.length < 14 || ys.all (fun y => y == ys.headD 0) then none
  else some (ys.map (fun _ => 0))

/-- Seed selection of the underlying estimator: a fixed random_state overrides
the ambient run-to-run entropy; only with random_state = None would the
ambient entropy be used. -/
def mkSeed (ambient : Nat) (randomState : Option Nat) : Nat :=
  match randomState with
  | some s => s
  | none => ambient

/-- Modelled from the spec: the pyod IForest per-row anomaly score with a
fixed random seed is a deterministic function of the seed and the feature
row; the stand-in below mixes the seed into the row sum.  The numeric values
are external-library behaviour and are not constrained by any claim below. -/
def iforestScore (seed : Nat) (row : List ℚ) : ℚ :=
  row.sum + ((seed % 97 : Nat) : ℚ) / 97

/-- Descending insertion for rational scores. -/
def insertDescQ (s : ℚ) : List ℚ → List ℚ
  | [] => [s]
  | b :: bs => if b < s then s :: b :: bs else b :: insertDescQ s bs

/-- Descending sort for rational scores. -/
def sortDescQ (l : List ℚ) : List ℚ := l.foldr insertDescQ []

/-- Modelled from the spec: the contamination-quantile labelling of pyod
IForest: the floor(contamination * n) highest-scoring points are labelled
anomalous. -/
def iforestLabels (contamination : ℚ) (scores : List ℚ) : List Bool :=
  let k := (contamination * scores.length).floor.toNat
  if k = 0 then scores.map (fun _ => false)
  else
    let thr := (sortDescQ scores).getD (k - 1) 0
    scores.map (fun s => decide (thr ≤ s))

/-- One fully scored point of the V1 pipeline output frame. -/
structure ScoredRow where
  ds : Nat
  y : ℚ
  residual : Option ℚ
  stlAnomaly : Bool
  score : ℚ
  isAnomaly : Bool
  direction : Option Direction
deriving DecidableEq

/-- The pandas test residual > 0 where an absent residual (NaN) compares
false. -/
def residGtZero (r : Option ℚ) : Bool :=
  match r with
  | some v => decide (0 < v)
  | none => false

/-- The pandas test residual < 0 where an absent residual (NaN) compares
false. -/
def residLtZero (r : Option ℚ) : Bool :=
  match r with
  | some v => decide (v < 0)
  | none => false

/-- detect_anomalies lines 54-57: anomaly_type starts absent (NaN); set to
Spike where iforest_anomaly = 1 and residual > 0, then to Drop where
iforest_anomaly = 1 and residual < 0 (the two masks are disjoint, so the
second assignment never overwrites the first). -/
def anomalyType (isAnom : Bool) (residual : Option ℚ) : Option Direction :=
  let t0 : Option Direction := none
  let t1 := if isAnom && residGtZero residual then some Direction.Spike else t0
  let t2 := if isAnom && residLtZero residual then some Direction.Drop else t1
  t2

/-- detect_anomalies (V1_app.py lines 31-59), parametric in the STL library
call (stl) and in the ambient run-to-run entropy (ambient, which the source
discards by fixing random_state = 42).  On STL failure the source emits a
warning and sets stl_anomaly to 0, but never creates the residuals column, so
the residuals access at line 46 raises a KeyError; that exception is the
error value below.  On success the availability test at line 46 compares a
pandas Series against None, which is always true, so the feature matrix is
[y, residual] per point.  The stl_anomaly flag compares squared quantities
because the 3-sigma threshold involves a square root, which is not rational;
the comparison is equivalent since both sides are nonnegative. -/
def detectAnomalies (ambient : Nat) (stl : List ℚ → Option (List ℚ))
    (rows : List (Nat × ℚ)) : Except String (List ScoredRow) :=
  let ys := rows.map Prod.snd
  match stl ys with
  | none => Except.error "KeyError: residuals"
  | some resid =>
      let stdOk : Bool := decide (2 ≤ resid.length)
      let X := (ys.zip resid).map (fun p => [p.1, p.2])
      let seed := mkSeed ambient (some 42)
      let scores := X.map (iforestScore seed)
      let labels := iforestLabels (5 / 100) scores
      Except.ok (((rows.zip resid).zip (scores.zip labels)).map
        (fun q =>
          { ds := q.1.1.1
            y := q.1.1.2
            residual := some q.1.2
            stlAnomaly := stdOk && decide (9 * sampleVar resid < q.1.2 ^ 2)
            score := q.2.1
            isAnomaly := q.2.2
            direction := anomalyType q.2.2 (some q.1.2) }))

/-- A five-day constant series: STL with period 7 needs at least two full
cycles, so the decomposition step fails on it. -/
def c2FailingLog : List (Nat × ℚ) := [(0, 100), (1, 100), (2, 100), (3, 100), (4, 100)]

/-! ### V1 top-anomalies ranking: top_anomalies (V1_app.py lines 126-128) -/

/-- The columns of the scored frame that the ranking reads. -/
structure AnomRow where
  ds : Nat
  score : ℚ
  isAnomaly : Bool
deriving DecidableEq

/-- Ascending stable insertion by score: an element is inserted after existing
elements of equal score (the stable kernel of the pandas ascending argsort). -/
def insertByScoreAsc (a : AnomRow) : List AnomRow → List AnomRow
  | [] => [a]
  | b :: bs => if a.score < b.score then a :: b :: bs else b :: insertByScoreAsc a bs

/-- Stable ascending sort by score. -/
def sortByScoreAsc (l : List AnomRow) : List AnomRow :=
  l.foldl (fun acc a => insertByScoreAsc a acc) []

/-- pandas sort_values(by = score, ascending = False): pandas nargsort reverses
the values and the index before the ascending argsort and reverses the indexer
after, so with a stable argsort kernel equal-score runs keep their original
input order in the descending output.  The argsort kernel is modelled as the
stable insertion sort above, which is the behaviour of the stable kinds; the
default quicksort kernel leaves the order within an equal-score run
unspecified, which a deterministic embedding cannot represent, so the stable
kernel is the reference model here. -/
def sortValuesDesc (l : List AnomRow) : List AnomRow :=
  (sortByScoreAsc l.reverse).reverse

/-- top_anomalies (V1_app.py lines 126-128): the rows with iforest_anomaly = 1,
sorted by anomaly score descending. -/
def topAnomalies (l : List AnomRow) : List AnomRow :=
  sortValuesDesc (l.filter (fun r => r.isAnomaly))

/-- The order produced by the stable ascending sort: score ascending, with an
equal-score tie ordered by the given relation on the dates (instantiated with
the processing order of the input). -/
def rowLexBy (tie : Nat → Nat → Prop) (a b : AnomRow) : Prop :=
  a.score < b.score ∨ (a.score = b.score ∧ tie a.ds b.ds)

/-! ### V2 data model and Per-Series Forecaster (V2_app.py lines 16-53) -/

/-- One record of the multi-series log train.csv. -/
structure V2Row where
  date : Nat
  store : Nat
  item : Nat
  sales : ℚ
deriving DecidableEq

/-- drop_duplicates on the (store, item) projection: keeps the first
occurrence of each pair, in order of first appearance. -/
def firstOccurrences : List (Nat × Nat) → List (Nat × Nat)
  | [] => []
  | p :: ps => p :: (firstOccurrences ps).filter (fun q => q ≠ p)

/-- The distinct (store, item) pairs of the dataset (V2_app.py line 33). -/
def uniquePairs (df : List V2Row) : List (Nat × Nat) :=
  firstOccurrences (df.map (fun r => (r.store, r.item)))

/-- The one-series slice of the dataset for a SeriesKey, renamed to (ds, y)
(V2_app.py lines 38-39). -/
def seriesFor (df : List V2Row) (s i : Nat) : List (Nat × ℚ) :=
  (df.filter (fun r => r.store == s && r.item == i)).map (fun r => (r.date, r.sales))

/-- Ascending insertion that drops duplicates (for the sorted distinct history
dates a fitted Prophet model stores). -/
def insertDateAsc (a : Nat) : List Nat → List Nat
  | [] => [a]
  | b :: bs =>
      if a < b then a :: b :: bs else if a = b then b :: bs else b :: insertDateAsc a bs

/-- Sorted distinct dates. -/
def sortedUniqueDates (l : List Nat) : List Nat := l.foldr insertDateAsc []

/-- A fitted Prophet model: the sorted distinct history dates plus the history
values read by the stand-in predictor. -/
structure ProphetModel where
  historyDates : List Nat
  historyValues : List ℚ
deriving DecidableEq

/-- The model Prophet.fit builds from a frame with at least two rows. -/
def prophetModelOf (hist : List (Nat × ℚ)) : ProphetModel :=
  ⟨sortedUniqueDates (hist.map Prod.fst), hist.map Prod.snd⟩

/-- Modelled from the spec: Prophet.fit raises when the frame has fewer than
two rows; otherwise it records the history. -/
def prophetFit (hist : List (Nat × ℚ)) : Except String ProphetModel :=
  if hist.length < 2 then Except.error "Dataframe has less than 2 non-NaN rows."
  else Except.ok (prophetModelOf hist)

/-- The latest history date (history_dates.max()). -/
def lastDate (m : ProphetModel) : Nat := m.historyDates.foldl Nat.max 0

/-- Prophet.make_future_dataframe(periods) with daily frequency and
include_history = True (its default): the history dates followed by the next
`periods` consecutive calendar days after the last history date. -/
def makeFutureDataframe (m : ProphetModel) (periods : Nat) : List Nat :=
  m.historyDates ++ (List.range periods).map (fun k => lastDate m + 1 + k)

/-- Modelled from the spec: the point estimate of the fitted additive model.
Its numeric value is external-library behaviour that no claim below
constrains; the stand-in returns the first history value. -/
def predictPoint (m : ProphetModel) (_d : Nat) : ℚ := m.historyValues.headD 0

/-- Modelled from the spec: the nonnegative half-width of the symmetric
uncertainty band around the point estimate. -/
def bandWidth (m : ProphetModel) : ℚ := |m.historyValues.headD 0|

/-- One row of a Prophet forecast frame. -/
structure ForecastRow where
  ds : Nat
  yhat : ℚ
  yhatLower : ℚ
  yhatUpper : ℚ
deriving DecidableEq

/-- Prophet.predict over a frame of dates: one row per input date, carrying
the point estimate and the symmetric uncertainty band around it. -/
def prophetPredict (m : ProphetModel) (dates : List Nat) : List ForecastRow :=
  dates.map (fun d => ⟨d, predictPoint m d, predictPoint m d - bandWidth m,
    predictPoint m d + bandWidth m⟩)

/-- A forecast row tagged with its SeriesKey (V2_app.py lines 46-47). -/
structure ForecastRowK where
  row : ForecastRow
  store : Nat
  item : Nat
deriving DecidableEq

/-- The forecast rows of one series, as produced by a successful fit: predict
over the history dates plus a 365-day future, tagged with the SeriesKey. -/
def forecastRowsFor (df : List V2Row) (p : Nat × Nat) : List ForecastRowK :=
  let m := prophetModelOf (seriesFor df p.1 p.2)
  (prophetPredict m (makeFutureDataframe m 365)).map (fun r => ⟨r, p.1, p.2⟩)

/-- The body of the per-series loop of load_and_forecast_data (V2_app.py lines
37-48): slice the series, fit, build the 365-day future frame, predict, tag
with the SeriesKey. -/
def forecastOne (df : List V2Row) (p : Nat × Nat) : Except String (List ForecastRowK) :=
  (prophetFit (seriesFor df p.1 p.2)).map (fun m =>
    (prophetPredict m (makeFutureDataframe m 365)).map (fun r => ⟨r, p.1, p.2⟩))

/-- load_and_forecast_data (V2_app.py lines 17-53): iterate the Per-Series
Forecaster over every distinct (store, item) pair and concatenate the
forecasts.  The loop body has no exception handling, so the first per-series
failure propagates and aborts the whole batch. -/
def loadAndForecastData (df : List V2Row) :
    Except String (List V2Row × List ForecastRowK) :=
  ((uniquePairs df).foldlM
    (fun acc p => (forecastOne df p).map (fun l => acc ++ l)) []).map
    (fun l => (df, l))

/-- A two-series dataset whose (1, 1) series has a single row (Prophet.fit
raises on it) and whose (1, 2) series has two rows (its fit succeeds). -/
def c3Df : List V2Row := [⟨0, 1, 1, 5⟩, ⟨0, 1, 2, 3⟩, ⟨1, 1, 2, 4⟩]

/-! ### V2 Backtest Evaluator: get_backtest_metrics (V2_app.py lines 56-72) -/

/-- The cutoff-generation loop of prophet.diagnostics.generate_cutoffs:
starting at the latest date minus the horizon, step backwards by the fold
period while the cutoff stays at or above the earliest date plus the initial
window.  Fuel bounds the recursion; callers pass more fuel than the loop can
consume.  The source also moves a cutoff earlier when no datapoint falls in
(cutoff, cutoff + horizon]; on the gap-free daily series this embedding is
instantiated with, that branch never fires and is omitted. -/
def cutoffsLoop : Nat → Int → Int → Int → List Int
  | 0, _, _, _ => []
  | fuel + 1, c, lowBound, p =>
      if c < lowBound then [] else c :: cutoffsLoop fuel (c - p) lowBound p

/-- prophet.diagnostics.generate_cutoffs for a series observed on the daily
range [dsMin, dsMax]: error when even one horizon does not fit after the
earliest date; otherwise the descending cutoffs, reversed to ascending; error
when no cutoff survives the initial window. -/
def generateCutoffs (dsMin dsMax horizon initial period : Int) :
    Except String (List Int) :=
  let cutoff := dsMax - horizon
  if cutoff < dsMin then Except.error "Less data than horizon."
  else
    let res := cutoffsLoop ((dsMax - dsMin).toNat + 1) cutoff (dsMin + initial) period
    if res.isEmpty then
      Except.error
        "Less data than horizon after initial window. Make horizon or initial shorter."
    else Except.ok res.reverse

/-- One row of the prophet cross_validation output frame df_cv. -/
structure CvRow where
  ds : Nat
  cutoff : Int
  y : ℚ
  yhat : ℚ
  yhatLower : ℚ
  yhatUpper : ℚ
deriving DecidableEq

/-- One fold of prophet cross_validation: predictions for the datapoints in
(cutoff, cutoff + horizon], from a model fitted on the data up to the cutoff. -/
def singleCutoffForecast (m : ProphetModel) (series : List (Nat × ℚ))
    (c horizon : Int) : List CvRow :=
  (series.filter (fun r => decide (c < (r.1 : Int)) && decide ((r.1 : Int) ≤ c + horizon))).map
    (fun r => ⟨r.1, c, r.2, predictPoint m r.1,
      predictPoint m r.1 - bandWidth m, predictPoint m r.1 + bandWidth m⟩)

/-- prophet.diagnostics.cross_validation on one series: generate the cutoffs
from the observed date range, then per cutoff refit on the data up to the
cutoff and forecast the next horizon days, concatenating the fold frames in
cutoff order. -/
def crossValidation (series : List (Nat × ℚ)) (horizon initial period : Int) :
    Except String (List CvRow) :=
  match generateCutoffs (minDate series) (maxDate series) horizon initial period with
  | Except.error e => Except.error e
  | Except.ok cutoffs =>
      cutoffs.foldlM (fun acc c =>
        (prophetFit (series.filter (fun r => decide ((r.1 : Int) ≤ c)))).map
          (fun m => acc ++ singleCutoffForecast m series c horizon)) []

/-- get_backtest_metrics (V2_app.py lines 56-72): slice the store 1, item 1
series, fit a Prophet model on it (raising on degenerate input), then run
cross_validation with initial 1095 days, period 180 days, horizon 90 days. -/
def getBacktestMetrics (df : List V2Row) : Except String (List CvRow) :=
  let sample := seriesFor df 1 1
  (prophetFit sample).bind (fun _ => crossValidation sample 90 1095 180)

/-- A contiguous daily series of length L with values v. -/
def dailySeries (L : Nat) (v : Nat → ℚ) : List (Nat × ℚ) :=
  (List.range L).map (fun d => (d, v d))

/-! ### V2 session wiring (V2_app.py lines 76-92 and 166-168) -/

/-- The streamlit session state: st.session_state either holds df_metrics or
does not. -/
structure SessionState where
  dfMetrics : Option (List CvRow)
deriving DecidableEq

/-- What one rerun of the script renders. -/
structure RerunView where
  forecastShown : Option (List ForecastRowK)
  metricsShown : Option (List CvRow)
deriving DecidableEq

/-- The Run Backtesting button handler (V2_app.py lines 90-92): it passes only
df_data to get_backtest_metrics; the selected store and item play no part. -/
def runBacktestingButton (df : List V2Row) (_selectedStore _selectedItem : Nat) :
    Except String (List CvRow) :=
  getBacktestMetrics df

/-- One top-to-bottom rerun of the V2 script: load_and_forecast_data always
runs (eagerly, line 76); the backtest runs only inside the button branch
(lines 90-92), which stores its result in the session state.  On a load
failure nothing is rendered; a backtest exception aborts the rerun before the
assignment, leaving the session state unchanged. -/
def scriptRun (df : List V2Row) (clicked : Bool) (s : SessionState) :
    SessionState × RerunView :=
  match loadAndForecastData df with
  | Except.error _ => (s, ⟨none, none⟩)
  | Except.ok dfPair =>
      let s1 := if clicked then
          match getBacktestMetrics dfPair.1 with
          | Except.ok metrics => { dfMetrics := some metrics }
          | Except.error _ => s
        else s
      (s1, ⟨some dfPair.2, s1.dfMetrics⟩)

/-- A session: a sequence of reruns from a fresh session state (df_metrics
absent). -/
def runTrace (df : List V2Row) (clicks : List Bool) : SessionState :=
  clicks.foldl (fun s c => (scriptRun df c s).fst) ⟨none⟩

theorem foldl_min_le_init (l : List Nat) (a : Nat) : l.foldl Nat.min a ≤ a := by
  induction l generalizing a with
  | nil => simp
  | cons b bs ih =>
      simp only [List.foldl_cons]
      exact le_trans (ih (Nat.min a b)) (Nat.min_le_left a b)

theorem foldl_min_le_mem (l : List Nat) (a : Nat) :
    ∀ d ∈ l, l.foldl Nat.min a ≤ d := by
  induction l generalizing a with
  | nil => intro d hd; simp at hd
  | cons b bs ih =>
      intro d hd
      rcases List.mem_cons.mp hd with h | h
      · subst h
        exact le_trans (foldl_min_le_init bs (Nat.min a d)) (Nat.min_le_right a d)
      · exact ih (Nat.min a b) d h

theorem init_le_foldl_max (l : List Nat) (a : Nat) : a ≤ l.foldl Nat.max a := by
  induction l generalizing a with
  | nil => simp
  | cons b bs ih =>
      simp only [List.foldl_cons]
      exact le_trans (Nat.le_max_left a b) (ih (Nat.max a b))

theorem mem_le_foldl_max (l : List Nat) (a : Nat) :
    ∀ d ∈ l, d ≤ l.foldl Nat.max a := by
  induction l generalizing a with
  | nil => intro d hd; simp at hd
  | cons b bs ih =>
      intro d hd
      rcases List.mem_cons.mp hd with h | h
      · subst h
        exact le_trans (Nat.le_max_right a d) (init_le_foldl_max bs (Nat.max a d))
      · exact ih (Nat.max a b) d h

theorem minDate_le (log : List (Nat × ℚ)) : ∀ r ∈ log, minDate log ≤ r.1 := by
  intro r hr
  match log, hr with
  | q :: rs, hr =>
      rcases List.mem_cons.mp hr with h | h
      · subst h; exact foldl_min_le_init _ _
      · exact foldl_min_le_mem _ _ r.1 (List.mem_map.mpr ⟨r, h, rfl⟩)

theorem le_maxDate (log : List (Nat × ℚ)) : ∀ r ∈ log, r.1 ≤ maxDate log := by
  intro r hr
  match log, hr with
  | q :: rs, hr =>
      rcases List.mem_cons.mp hr with h | h
      · subst h; exact init_le_foldl_max _ _
      · exact mem_le_foldl_max _ _ r.1 (List.mem_map.mpr ⟨r, h, rfl⟩)

theorem sumOnDate_absent (log : List (Nat × ℚ)) (d : Nat)
    (h : ∀ r ∈ log, r.1 ≠ d) : sumOnDate log d = 0 := by
  unfold sumOnDate
  have : log.filter (fun r => r.1 == d) = [] := by
    rw [List.filter_eq_nil_iff]
    intro r hr
    simpa using h r hr
  rw [this]
  simp

/-- C1: Grid Builder correctness: for every non-empty input log the output grid
has exactly `maxDate - minDate + 1` points with strictly increasing dates (hence
no duplicates); every output value is the per-date input sum; every date present
in the input appears in the output carrying its per-date sum; and every calendar
date in `[minDate, maxDate]` absent from the input appears with value 0. -/
theorem C1_grid_builder_correct (log : List (Nat × ℚ)) (hne : log ≠ []) :
    ∃ out, loadAndPreprocessData log = some out ∧
      out.length = maxDate log - minDate log + 1 ∧
      List.Pairwise (fun a b : Nat × ℚ => a.1 < b.1) out ∧
      (∀ q ∈ out, q.2 = sumOnDate log q.1) ∧
      (∀ r ∈ log, (r.1, sumOnDate log r.1) ∈ out) ∧
      (∀ d : Nat, minDate log ≤ d → d ≤ maxDate log →
        (∀ r ∈ log, r.1 ≠ d) → (d, (0 : ℚ)) ∈ out) := by
  match log, hne with
  | p :: ps, _ =>
      set log := p :: ps with hlog
      refine ⟨(List.range (maxDate log - minDate log + 1)).map
        (fun i => (minDate log + i, sumOnDate log (minDate log + i))), rfl, ?_, ?_, ?_, ?_, ?_⟩
      · simp
      · refine List.Pairwise.map _ ?_ (List.pairwise_lt_range _)
        intro a b hab
        simpa using hab
      · intro q hq
        rcases List.mem_map.mp hq with ⟨i, _, hiq⟩
        rw [← hiq]
      · intro r hr
        have h1 : minDate log ≤ r.1 := minDate_le log r hr
        have h2 : r.1 ≤ maxDate log := le_maxDate log r hr
        refine List.mem_map.mpr ⟨r.1 - minDate log, ?_, ?_⟩
        · exact List.mem_range.mpr (by omega)
        · have : minDate log + (r.1 - minDate log) = r.1 := by omega
          rw [this]
      · intro d hd1 hd2 habs
        refine List.mem_map.mpr ⟨d - minDate log, ?_, ?_⟩
        · exact List.mem_range.mpr (by omega)
        · have hdd : minDate log + (d - minDate log) = d := by omega
          rw [hdd, sumOnDate_absent log d habs]

/-- Witness for C1 on a concrete three-record log (two records share date 3,
date 4 is absent from the input). -/
theorem C1_witness :
    ([((3 : Nat), (5 : ℚ)), (5, 7), (3, 1)] ≠ ([] : List (Nat × ℚ))) ∧
    (∃ out, loadAndPreprocessData [((3 : Nat), (5 : ℚ)), (5, 7), (3, 1)] = some out ∧
      out.length = maxDate [((3 : Nat), (5 : ℚ)), (5, 7), (3, 1)] -
        minDate [((3 : Nat), (5 : ℚ)), (5, 7), (3, 1)] + 1 ∧
      List.Pairwise (fun a b : Nat × ℚ => a.1 < b.1) out ∧
      (∀ q ∈ out, q.2 = sumOnDate [((3 : Nat), (5 : ℚ)), (5, 7), (3, 1)] q.1) ∧
      (∀ r ∈ [((3 : Nat), (5 : ℚ)), (5, 7), (3, 1)],
        (r.1, sumOnDate [((3 : Nat), (5 : ℚ)), (5, 7), (3, 1)] r.1) ∈ out) ∧
      (∀ d : Nat, minDate [((3 : Nat), (5 : ℚ)), (5, 7), (3, 1)] ≤ d →
        d ≤ maxDate [((3 : Nat), (5 : ℚ)), (5, 7), (3, 1)] →
        (∀ r ∈ [((3 : Nat), (5 : ℚ)), (5, 7), (3, 1)], r.1 ≠ d) →
        (d, (0 : ℚ)) ∈ out)) :=
  ⟨by decide, C1_grid_builder_correct _ (by decide)⟩

/-- C2 (code bug): on the five-day constant series the STL step fails, and
instead of warning and continuing to the Outlier Scorer with value-only
features, detect_anomalies raises a KeyError, because the except branch never
created the residuals column that line 46 then reads. -/
theorem C2_stl_failure_raises :
    detectAnomalies 0 stlModel c2FailingLog = Except.error "KeyError: residuals" := rfl

/-- C8: Outlier Scorer determinism: random_state is fixed at 42, so the
ambient run-to-run entropy has no influence: two runs of detect_anomalies on
identical input produce identical scores and labels. -/
theorem C8_scorer_deterministic (e1 e2 : Nat) (stl : List ℚ → Option (List ℚ))
    (rows : List (Nat × ℚ)) :
    detectAnomalies e1 stl rows = detectAnomalies e2 stl rows := rfl

/-- C5: Anomaly Classifier direction: a point is classified Spike exactly when
it is anomalous with a present positive residual, Drop exactly when it is
anomalous with a present negative residual, and a non-anomalous point receives
no direction; consequently an anomalous point with an absent or zero residual
is unclassified, and {Spike, Drop, unclassified} partitions the anomalous
points. -/
theorem anomalyType_true_some (v : ℚ) :
    anomalyType true (some v) =
      if v < 0 then some Direction.Drop
      else if 0 < v then some Direction.Spike else none := by
  simp [anomalyType, residGtZero, residLtZero]

theorem C5_classifier_direction (b : Bool) (r : Option ℚ) :
    (anomalyType b r = some Direction.Spike ↔ b = true ∧ ∃ v : ℚ, r = some v ∧ 0 < v) ∧
    (anomalyType b r = some Direction.Drop ↔ b = true ∧ ∃ v : ℚ, r = some v ∧ v < 0) ∧
    (b = false → anomalyType b r = none) := by
  cases b with
  | false => simp [anomalyType, residGtZero, residLtZero]
  | true =>
      cases r with
      | none => simp [anomalyType, residGtZero, residLtZero]
      | some v =>
          rcases lt_trichotomy v 0 with h | h | h
          · refine ⟨?_, ?_, by simp⟩
            · rw [anomalyType_true_some, if_pos h]
              simp [lt_asymm h]
            · rw [anomalyType_true_some, if_pos h]
              simp [h]
          · rw [h]
            simp [anomalyType_true_some]
          · refine ⟨?_, ?_, by simp⟩
            · rw [anomalyType_true_some, if_neg (by exact not_lt_of_gt h), if_pos h]
              simp [h]
            · rw [anomalyType_true_some, if_neg (by exact not_lt_of_gt h), if_pos h]
              simp [lt_asymm h]

/-- Witness for C5: a non-anomalous point gets no direction, and an anomalous
point with residual 2 is a Spike. -/
theorem C5_witness :
    anomalyType false (some 2) = none ∧
    anomalyType true (some 2) = some Direction.Spike :=
  ⟨(C5_classifier_direction false (some 2)).2.2 rfl,
   (C5_classifier_direction true (some 2)).1.mpr ⟨rfl, 2, rfl, by norm_num⟩⟩

theorem insertByScoreAsc_perm (a : AnomRow) (l : List AnomRow) :
    List.Perm (insertByScoreAsc a l) (a :: l) := by
  induction l with
  | nil => simp [insertByScoreAsc]
  | cons b bs ih =>
      unfold insertByScoreAsc
      by_cases h : a.score < b.score
      · rw [if_pos h]
      · rw [if_neg h]
        exact List.Perm.trans (List.Perm.cons b ih) (List.Perm.swap a b bs)

theorem mem_insertByScoreAsc {x a : AnomRow} {l : List AnomRow}
    (h : x ∈ insertByScoreAsc a l) : x = a ∨ x ∈ l := by
  have := (insertByScoreAsc_perm a l).mem_iff.mp h
  simpa using this

theorem sortByScoreAsc_perm_aux (l acc : List AnomRow) :
    List.Perm (l.foldl (fun acc a => insertByScoreAsc a acc) acc) (l ++ acc) := by
  induction l generalizing acc with
  | nil => simp
  | cons a as ih =>
      simp only [List.foldl_cons, List.cons_append]
      refine List.Perm.trans (ih (insertByScoreAsc a acc)) ?_
      exact List.Perm.trans
        (List.Perm.append_left as (insertByScoreAsc_perm a acc)) List.perm_middle

theorem sortByScoreAsc_perm (l : List AnomRow) :
    List.Perm (sortByScoreAsc l) l := by
  have := sortByScoreAsc_perm_aux l []
  simpa [sortByScoreAsc] using this

theorem insertByScoreAsc_pairwise (tie : Nat → Nat → Prop) (a : AnomRow)
    (l : List AnomRow) :
    List.Pairwise (rowLexBy tie) l → (∀ b ∈ l, tie b.ds a.ds) →
    List.Pairwise (rowLexBy tie) (insertByScoreAsc a l) := by
  induction l with
  | nil => intro _ _; simp [insertByScoreAsc, List.Pairwise]
  | cons b bs ih =>
      intro hp hd
      unfold insertByScoreAsc
      by_cases h : a.score < b.score
      · rw [if_pos h]
        refine List.Pairwise.cons ?_ hp
        intro x hx
        rcases List.mem_cons.mp hx with hxb | hxbs
        · rw [hxb]; exact Or.inl h
        · rcases (List.pairwise_cons.mp hp).1 x hxbs with hs | ⟨hse, _⟩
          · exact Or.inl (lt_trans h hs)
          · exact Or.inl (hse ▸ h)
      · rw [if_neg h]
        refine List.Pairwise.cons ?_ (ih (List.pairwise_cons.mp hp).2
          (fun c hc => hd c (List.mem_cons_of_mem b hc)))
        intro x hx
        rcases mem_insertByScoreAsc hx with hxa | hxbs
        · rw [hxa]
          rcases lt_or_eq_of_le (not_lt.mp h) with hs | hs
          · exact Or.inl hs
          · exact Or.inr ⟨hs, hd b (List.mem_cons_self b bs)⟩
        · exact (List.pairwise_cons.mp hp).1 x hxbs

theorem sortByScoreAsc_pairwise_aux (tie : Nat → Nat → Prop) (l : List AnomRow) :
    ∀ acc : List AnomRow, List.Pairwise (fun a b : AnomRow => tie a.ds b.ds) l →
    List.Pairwise (rowLexBy tie) acc →
    (∀ b ∈ acc, ∀ x ∈ l, tie b.ds x.ds) →
    List.Pairwise (rowLexBy tie) (l.foldl (fun acc a => insertByScoreAsc a acc) acc) := by
  induction l with
  | nil => intro acc _ hacc _; simpa using hacc
  | cons a as ih =>
      intro acc hl hacc hcross
      simp only [List.foldl_cons]
      refine ih (insertByScoreAsc a acc) (List.pairwise_cons.mp hl).2
        (insertByScoreAsc_pairwise tie a acc hacc
          (fun b hb => hcross b hb a (List.mem_cons_self a as))) ?_
      intro b hb x hx
      rcases mem_insertByScoreAsc hb with hba | hbacc
      · rw [hba]; exact (List.pairwise_cons.mp hl).1 x hx
      · exact hcross b hbacc x (List.mem_cons_of_mem a hx)

/-- C6 counterexample: two anomalous rows with equal scores on days 0 and 1,
in chronological order.  The top-anomalies table keeps them oldest first
(day 0 before day 1), so it is not ordered by the claimed tie-break rule
descending score with equal scores broken by the most recent date first. -/
theorem C6_tie_order_counterexample :
    topAnomalies [⟨0, 5, true⟩, ⟨1, 5, true⟩] = [⟨0, 5, true⟩, ⟨1, 5, true⟩] ∧
    ¬ List.Pairwise (fun a b : AnomRow =>
        b.score < a.score ∨ (b.score = a.score ∧ b.ds < a.ds))
      (topAnomalies [⟨0, 5, true⟩, ⟨1, 5, true⟩]) := by
  constructor
  · rfl
  · decide

/-- C6 amended: on a chronologically increasing scored sequence the
top-anomalies table contains exactly the rows with is_anomaly = true, sorted
descending by anomaly score; ties are not broken by the most recent date:
pandas nargsort reverses the values before the ascending argsort and reverses
the indexer after, so under the stable sort kinds an equal-score run keeps its
original chronological order, oldest first (the default quicksort kernel
leaves the tie order unspecified; the stable kernel is what this embedding
models). -/
theorem C6_top_anomalies_ranking_amended (l : List AnomRow)
    (hd : List.Pairwise (fun a b : AnomRow => a.ds < b.ds) l) :
    List.Perm (topAnomalies l) (l.filter (fun r => r.isAnomaly)) ∧
    List.Pairwise (fun a b : AnomRow =>
      b.score < a.score ∨ (b.score = a.score ∧ a.ds < b.ds)) (topAnomalies l) := by
  constructor
  · unfold topAnomalies sortValuesDesc
    refine List.Perm.trans (List.reverse_perm _) ?_
    refine List.Perm.trans (sortByScoreAsc_perm _) ?_
    exact List.reverse_perm _
  · unfold topAnomalies sortValuesDesc
    rw [List.pairwise_reverse]
    have hfil : List.Pairwise (fun a b : AnomRow => a.ds < b.ds)
        (l.filter (fun r => r.isAnomaly)) := List.Pairwise.filter _ hd
    have hrev : List.Pairwise (fun a b : AnomRow => b.ds < a.ds)
        (l.filter (fun r => r.isAnomaly)).reverse := by
      rw [List.pairwise_reverse]
      exact hfil
    have := sortByScoreAsc_pairwise_aux (fun x y => y < x)
      ((l.filter (fun r => r.isAnomaly)).reverse) [] hrev (by simp) (by simp)
    simpa [sortByScoreAsc, rowLexBy] using this

/-- Witness for the amended C6 on a concrete three-row frame with an
equal-score tie between dates 0 and 1 and a non-anomalous row. -/
theorem C6_witness :
    List.Pairwise (fun a b : AnomRow => a.ds < b.ds)
      [⟨0, 5, true⟩, ⟨1, 5, true⟩, ⟨2, 3, false⟩] ∧
    (List.Perm (topAnomalies [⟨0, 5, true⟩, ⟨1, 5, true⟩, ⟨2, 3, false⟩])
      (([⟨0, 5, true⟩, ⟨1, 5, true⟩, ⟨2, 3, false⟩] : List AnomRow).filter
        (fun r => r.isAnomaly)) ∧
    List.Pairwise (fun a b : AnomRow =>
      b.score < a.score ∨ (b.score = a.score ∧ a.ds < b.ds))
      (topAnomalies [⟨0, 5, true⟩, ⟨1, 5, true⟩, ⟨2, 3, false⟩])) :=
  ⟨by decide, C6_top_anomalies_ranking_amended _ (by decide)⟩

theorem forecastOne_ok (df : List V2Row) (p : Nat × Nat)
    (h : 2 ≤ (seriesFor df p.1 p.2).length) :
    forecastOne df p = Except.ok (forecastRowsFor df p) := by
  unfold forecastOne prophetFit forecastRowsFor
  rw [if_neg (by omega)]
  rfl

theorem forecastOne_err (df : List V2Row) (p : Nat × Nat)
    (h : (seriesFor df p.1 p.2).length < 2) :
    forecastOne df p = Except.error "Dataframe has less than 2 non-NaN rows." := by
  unfold forecastOne prophetFit
  rw [if_pos h]
  rfl

theorem foldlM_forecast_cases (df : List V2Row) :
    ∀ (pairs : List (Nat × Nat)) (acc : List ForecastRowK),
    (pairs.foldlM (fun acc p => (forecastOne df p).map (fun l => acc ++ l)) acc =
       Except.ok (acc ++ pairs.flatMap (forecastRowsFor df)) ∧
       (∀ p ∈ pairs, 2 ≤ (seriesFor df p.1 p.2).length)) ∨
    (pairs.foldlM (fun acc p => (forecastOne df p).map (fun l => acc ++ l)) acc =
       Except.error "Dataframe has less than 2 non-NaN rows." ∧
       (∃ p ∈ pairs, (seriesFor df p.1 p.2).length < 2)) := by
  intro pairs
  induction pairs with
  | nil =>
      intro acc
      left
      constructor
      · simp [List.foldlM, pure, Except.pure]
      · intro p hp; simp at hp
  | cons p ps ih =>
      intro acc
      by_cases hp : (seriesFor df p.1 p.2).length < 2
      · right
        constructor
        · simp only [List.foldlM_cons, forecastOne_err df p hp, Except.map]
          rfl
        · exact ⟨p, List.mem_cons_self p ps, hp⟩
      · have hp2 : 2 ≤ (seriesFor df p.1 p.2).length := by omega
        rcases ih (acc ++ forecastRowsFor df p) with ⟨heq, hall⟩ | ⟨heq, hex⟩
        · left
          constructor
          · simp only [Except.map] at heq
            simp only [List.foldlM_cons, forecastOne_ok df p hp2, Except.map]
            show Except.bind _ _ = _
            simp only [Except.bind]
            rw [heq]
            simp [List.flatMap_cons, List.append_assoc]
          · intro q hq
            rcases List.mem_cons.mp hq with hqp | hqs
            · rw [hqp]; exact hp2
            · exact hall q hqs
        · right
          constructor
          · simp only [Except.map] at heq
            simp only [List.foldlM_cons, forecastOne_ok df p hp2, Except.map]
            show Except.bind _ _ = _
            simp only [Except.bind]
            exact heq
          · rcases hex with ⟨q, hq, hql⟩
            exact ⟨q, List.mem_cons_of_mem p hq, hql⟩

/-- C3 amended: the Batch Forecast Runner has no per-series failure isolation:
when every distinct (store, item) series fits, the combined output contains
the forecast rows of every series; when any series fails to fit, the
exception propagates and the whole batch aborts with no output at all. -/
theorem C3_batch_all_or_nothing (df : List V2Row) :
    ((∀ p ∈ uniquePairs df, 2 ≤ (seriesFor df p.1 p.2).length) →
      loadAndForecastData df =
        Except.ok (df, (uniquePairs df).flatMap (forecastRowsFor df))) ∧
    ((∃ p ∈ uniquePairs df, (seriesFor df p.1 p.2).length < 2) →
      loadAndForecastData df =
        Except.error "Dataframe has less than 2 non-NaN rows.") := by
  constructor
  · intro hall
    rcases foldlM_forecast_cases df (uniquePairs df) [] with ⟨heq, _⟩ | ⟨_, hex⟩
    · unfold loadAndForecastData
      rw [heq]
      rfl
    · rcases hex with ⟨q, hq, hql⟩
      have := hall q hq
      omega
  · intro hex
    rcases foldlM_forecast_cases df (uniquePairs df) [] with ⟨_, hall⟩ | ⟨heq, _⟩
    · rcases hex with ⟨q, hq, hql⟩
      have := hall q hq
      omega
    · unfold loadAndForecastData
      rw [heq]
      rfl

/-- Witness for the amended C3 on a one-series dataset whose series fits. -/
theorem C3_witness :
    (∀ p ∈ uniquePairs [⟨0, 1, 1, 1⟩, ⟨1, 1, 1, 2⟩],
      2 ≤ (seriesFor [⟨0, 1, 1, 1⟩, ⟨1, 1, 1, 2⟩] p.1 p.2).length) ∧
    loadAndForecastData [⟨0, 1, 1, 1⟩, ⟨1, 1, 1, 2⟩] =
      Except.ok ([⟨0, 1, 1, 1⟩, ⟨1, 1, 1, 2⟩],
        (uniquePairs [⟨0, 1, 1, 1⟩, ⟨1, 1, 1, 2⟩]).flatMap
          (forecastRowsFor [⟨0, 1, 1, 1⟩, ⟨1, 1, 1, 2⟩])) :=
  ⟨by decide, (C3_batch_all_or_nothing _).1 (by decide)⟩

/-- C3 counterexample: in c3Df the fit of series (1, 2) succeeds, yet the
batch runner output contains no forecast for it (nor anything else), because
the fit failure of series (1, 1) aborts the whole run. -/
theorem C3_counterexample :
    loadAndForecastData c3Df = Except.error "Dataframe has less than 2 non-NaN rows." ∧
    prophetFit (seriesFor c3Df 1 2) = Except.ok (prophetModelOf (seriesFor c3Df 1 2)) :=
  ⟨rfl, rfl⟩

theorem insertDateAsc_of_lt (a : Nat) (l : List Nat) (h : ∀ x ∈ l, a < x) :
    insertDateAsc a l = a :: l := by
  cases l with
  | nil => rfl
  | cons b bs =>
      unfold insertDateAsc
      rw [if_pos (h b (List.mem_cons_self b bs))]

theorem sortedUniqueDates_sorted_id (l : List Nat) :
    List.Pairwise (· < ·) l → sortedUniqueDates l = l := by
  induction l with
  | nil => intro _; rfl
  | cons a as ih =>
      intro h
      unfold sortedUniqueDates at ih ⊢
      simp only [List.foldr_cons]
      rw [ih (List.pairwise_cons.mp h).2]
      exact insertDateAsc_of_lt a as (List.pairwise_cons.mp h).1

theorem bandWidth_nonneg (m : ProphetModel) : 0 ≤ bandWidth m := abs_nonneg _

/-- C4: Per-Series Forecaster output domain and bounds: for a series with
strictly increasing dates whose fit succeeds, the forecast dates are exactly
the historical dates followed by the 365 consecutive calendar days after the
last historical date, the forecast has historical length + 365 rows, and
every row satisfies lower bound ≤ point estimate ≤ upper bound. -/
theorem C4_forecaster_domain_bounds (hist : List (Nat × ℚ))
    (hsorted : List.Pairwise (· < ·) (hist.map Prod.fst))
    (hlen : 2 ≤ hist.length) :
    ∃ m, prophetFit hist = Except.ok m ∧
      (prophetPredict m (makeFutureDataframe m 365)).map ForecastRow.ds =
        hist.map Prod.fst ++ (List.range 365).map (fun k => lastDate m + 1 + k) ∧
      (prophetPredict m (makeFutureDataframe m 365)).length = hist.length + 365 ∧
      (∀ d ∈ hist.map Prod.fst, d ≤ lastDate m) ∧
      (∀ r ∈ prophetPredict m (makeFutureDataframe m 365),
        r.yhatLower ≤ r.yhat ∧ r.yhat ≤ r.yhatUpper) := by
  have hdates : (prophetModelOf hist).historyDates = hist.map Prod.fst := by
    unfold prophetModelOf
    exact sortedUniqueDates_sorted_id _ hsorted
  refine ⟨prophetModelOf hist, ?_, ?_, ?_, ?_, ?_⟩
  · unfold prophetFit
    rw [if_neg (by omega)]
  · unfold prophetPredict makeFutureDataframe
    rw [List.map_map, hdates]
    simp [Function.comp_def]
  · unfold prophetPredict makeFutureDataframe
    rw [List.length_map, List.length_append, hdates]
    simp
  · intro d hd
    unfold lastDate
    rw [hdates]
    exact mem_le_foldl_max _ _ d hd
  · intro r hr
    unfold prophetPredict at hr
    rcases List.mem_map.mp hr with ⟨d, _, hrd⟩
    rw [← hrd]
    have hb := bandWidth_nonneg (prophetModelOf hist)
    constructor
    · simp only
      linarith
    · simp only
      linarith

/-- Witness for C4 on a concrete two-point series. -/
theorem C4_witness :
    List.Pairwise (· < ·) (([((0 : Nat), (1 : ℚ)), (1, 2)]).map Prod.fst) ∧
    2 ≤ ([((0 : Nat), (1 : ℚ)), (1, 2)]).length ∧
    (∃ m, prophetFit [((0 : Nat), (1 : ℚ)), (1, 2)] = Except.ok m ∧
      (prophetPredict m (makeFutureDataframe m 365)).map ForecastRow.ds =
        ([((0 : Nat), (1 : ℚ)), (1, 2)]).map Prod.fst ++
          (List.range 365).map (fun k => lastDate m + 1 + k) ∧
      (prophetPredict m (makeFutureDataframe m 365)).length =
        ([((0 : Nat), (1 : ℚ)), (1, 2)]).length + 365 ∧
      (∀ d ∈ ([((0 : Nat), (1 : ℚ)), (1, 2)]).map Prod.fst, d ≤ lastDate m) ∧
      (∀ r ∈ prophetPredict m (makeFutureDataframe m 365),
        r.yhatLower ≤ r.yhat ∧ r.yhat ≤ r.yhatUpper)) :=
  ⟨by decide, by decide, C4_forecaster_domain_bounds _ (by decide) (by decide)⟩

theorem foldl_max_le (l : List Nat) : ∀ a b : Nat, a ≤ b → (∀ x ∈ l, x ≤ b) →
    l.foldl Nat.max a ≤ b := by
  induction l with
  | nil => intro a b ha _; simpa using ha
  | cons c cs ih =>
      intro a b ha hm
      simp only [List.foldl_cons]
      exact ih _ b (Nat.max_le.mpr ⟨ha, hm c (List.mem_cons_self c cs)⟩)
        (fun x hx => hm x (List.mem_cons_of_mem c hx))

theorem maxDate_le_of_all (log : List (Nat × ℚ)) (b : Nat)
    (h : ∀ r ∈ log, r.1 ≤ b) : maxDate log ≤ b := by
  cases log with
  | nil => simp [maxDate]
  | cons r rs =>
      simp only [maxDate]
      refine foldl_max_le _ _ _ (h r (List.mem_cons_self r rs)) ?_
      intro x hx
      rcases List.mem_map.mp hx with ⟨q, hq, hqx⟩
      rw [← hqx]
      exact h q (List.mem_cons_of_mem r hq)

theorem minDate_dailySeries (L : Nat) (v : Nat → ℚ) (hL : 1 ≤ L) :
    minDate (dailySeries L v) = 0 := by
  obtain ⟨n, hn⟩ : ∃ n, L = n + 1 := ⟨L - 1, by omega⟩
  rw [hn]
  unfold dailySeries
  rw [List.range_succ_eq_map]
  simp only [List.map_cons, minDate]
  have := foldl_min_le_init
    ((((List.range n).map Nat.succ).map (fun d => (d, v d))).map Prod.fst) 0
  omega

theorem maxDate_dailySeries (L : Nat) (v : Nat → ℚ) (hL : 1 ≤ L) :
    maxDate (dailySeries L v) = L - 1 := by
  have hmem : ((L - 1 : Nat), v (L - 1)) ∈ dailySeries L v := by
    unfold dailySeries
    exact List.mem_map.mpr ⟨L - 1, List.mem_range.mpr (by omega), rfl⟩
  have h1 : L - 1 ≤ maxDate (dailySeries L v) := le_maxDate _ _ hmem
  have h2 : maxDate (dailySeries L v) ≤ L - 1 := by
    refine maxDate_le_of_all _ _ ?_
    intro r hr
    rcases List.mem_map.mp hr with ⟨d, hd, hdr⟩
    rw [← hdr]
    have := List.mem_range.mp hd
    omega
  omega

theorem cutoffsLoop_stop (fuel : Nat) (c lowBound p : Int) (h : c < lowBound) :
    cutoffsLoop fuel c lowBound p = [] := by
  cases fuel with
  | zero => rfl
  | succ n =>
      unfold cutoffsLoop
      rw [if_pos h]

theorem cutoffsLoop_mem_le (p : Int) (hp : 0 < p) :
    ∀ (fuel : Nat) (c lowBound : Int), ∀ x ∈ cutoffsLoop fuel c lowBound p, x ≤ c := by
  intro fuel
  induction fuel with
  | zero => intro c lowBound x hx; simp [cutoffsLoop] at hx
  | succ n ih =>
      intro c lowBound x hx
      unfold cutoffsLoop at hx
      by_cases h : c < lowBound
      · rw [if_pos h] at hx; simp at hx
      · rw [if_neg h] at hx
        rcases List.mem_cons.mp hx with hxc | hxs
        · omega
        · have := ih (c - p) lowBound x hxs
          omega

theorem cutoffsLoop_pairwise (p : Int) (hp : 0 < p) :
    ∀ (fuel : Nat) (c lowBound : Int),
    List.Pairwise (fun a b : Int => b < a) (cutoffsLoop fuel c lowBound p) := by
  intro fuel
  induction fuel with
  | zero => intro c lowBound; simp [cutoffsLoop]
  | succ n ih =>
      intro c lowBound
      unfold cutoffsLoop
      by_cases h : c < lowBound
      · rw [if_pos h]; exact List.Pairwise.nil
      · rw [if_neg h]
        refine List.Pairwise.cons ?_ (ih (c - p) lowBound)
        intro x hx
        have := cutoffsLoop_mem_le p hp n (c - p) lowBound x hx
        omega

theorem cutoffsLoop_length (p : Int) (hp : 0 < p) :
    ∀ (fuel : Nat) (c lowBound : Int), lowBound ≤ c →
    (c - lowBound).toNat / p.toNat < fuel →
    (cutoffsLoop fuel c lowBound p).length = (c - lowBound).toNat / p.toNat + 1 := by
  intro fuel
  induction fuel with
  | zero => intro c lowBound hle hf; exact absurd hf (Nat.not_lt_zero _)
  | succ n ih =>
      intro c lowBound hle hf
      unfold cutoffsLoop
      rw [if_neg (not_lt.mpr hle)]
      by_cases h2 : c - p < lowBound
      · have hdiv : (c - lowBound).toNat / p.toNat = 0 :=
          Nat.div_eq_of_lt (by omega)
        rw [cutoffsLoop_stop n (c - p) lowBound p h2]
        simp [hdiv]
      · have hple : lowBound ≤ c - p := not_lt.mp h2
        have hsplit : (c - lowBound).toNat = (c - p - lowBound).toNat + p.toNat := by omega
        have hdiv : (c - lowBound).toNat / p.toNat = (c - p - lowBound).toNat / p.toNat + 1 := by
          rw [hsplit, Nat.add_div_right _ (by omega : 0 < p.toNat)]
        have hfn : (c - p - lowBound).toNat / p.toNat < n := by omega
        rw [List.length_cons, ih (c - p) lowBound hple hfn]
        omega

theorem generateCutoffs_spec (dsMin dsMax horizon initial period : Int)
    (hp : 0 < period) (hh : 0 ≤ horizon) (hi : 0 ≤ initial) :
    (dsMax - dsMin < horizon + initial →
      ∃ e, generateCutoffs dsMin dsMax horizon initial period = Except.error e) ∧
    (horizon + initial ≤ dsMax - dsMin →
      ∃ cs, generateCutoffs dsMin dsMax horizon initial period = Except.ok cs ∧
        cs.length = (dsMax - dsMin - horizon - initial).toNat / period.toNat + 1 ∧
        List.Pairwise (fun a b : Int => a < b) cs) := by
  constructor
  · intro hshort
    simp only [generateCutoffs]
    by_cases h1 : dsMax - horizon < dsMin
    · rw [if_pos h1]
      exact ⟨_, rfl⟩
    · rw [if_neg h1,
        cutoffsLoop_stop ((dsMax - dsMin).toNat + 1) (dsMax - horizon)
          (dsMin + initial) period (by omega)]
      exact ⟨_, rfl⟩
  · intro hlong
    simp only [generateCutoffs]
    rw [if_neg (by omega : ¬ dsMax - horizon < dsMin)]
    have hle : dsMin + initial ≤ dsMax - horizon := by omega
    have hfuel : (dsMax - horizon - (dsMin + initial)).toNat / period.toNat <
        (dsMax - dsMin).toNat + 1 := by
      have hds : (dsMax - horizon - (dsMin + initial)).toNat / period.toNat ≤
          (dsMax - horizon - (dsMin + initial)).toNat := Nat.div_le_self _ _
      omega
    have hlen := cutoffsLoop_length period hp ((dsMax - dsMin).toNat + 1)
      (dsMax - horizon) (dsMin + initial) hle hfuel
    obtain ⟨c0, cs0, hcons⟩ : ∃ c0 cs0,
        cutoffsLoop ((dsMax - dsMin).toNat + 1) (dsMax - horizon)
          (dsMin + initial) period = c0 :: cs0 := by
      cases hcl : cutoffsLoop ((dsMax - dsMin).toNat + 1) (dsMax - horizon)
          (dsMin + initial) period with
      | nil => rw [hcl] at hlen; simp at hlen
      | cons a b => exact ⟨a, b, rfl⟩
    rw [hcons]
    simp only [List.isEmpty_cons, Bool.false_eq_true, if_false]
    refine ⟨_, rfl, ?_, ?_⟩
    · rw [List.length_reverse, ← hcons, hlen]
      have harg : (dsMax - horizon - (dsMin + initial)).toNat =
          (dsMax - dsMin - horizon - initial).toNat := by omega
      rw [harg]
    · rw [List.pairwise_reverse, ← hcons]
      exact cutoffsLoop_pairwise period hp _ _ _

theorem cutoffsLoop_mem_ge :
    ∀ (fuel : Nat) (c lowBound p : Int), ∀ x ∈ cutoffsLoop fuel c lowBound p,
    lowBound ≤ x := by
  intro fuel
  induction fuel with
  | zero => intro c lowBound p x hx; simp [cutoffsLoop] at hx
  | succ n ih =>
      intro c lowBound p x hx
      unfold cutoffsLoop at hx
      by_cases h : c < lowBound
      · rw [if_pos h] at hx; simp at hx
      · rw [if_neg h] at hx
        rcases List.mem_cons.mp hx with hxc | hxs
        · omega
        · exact ih (c - p) lowBound p x hxs

theorem generateCutoffs_mem_lower (dsMin dsMax horizon initial period : Int)
    (cs : List Int)
    (h : generateCutoffs dsMin dsMax horizon initial period = Except.ok cs) :
    ∀ x ∈ cs, dsMin + initial ≤ x := by
  simp only [generateCutoffs] at h
  by_cases h1 : dsMax - horizon < dsMin
  · rw [if_pos h1] at h; cases h
  · rw [if_neg h1] at h
    by_cases h2 : (cutoffsLoop ((dsMax - dsMin).toNat + 1) (dsMax - horizon)
        (dsMin + initial) period).isEmpty
    · rw [if_pos h2] at h; cases h
    · rw [if_neg h2] at h
      injection h with h3
      intro x hx
      rw [← h3] at hx
      exact cutoffsLoop_mem_ge _ _ _ _ x (List.mem_reverse.mp hx)

theorem two_le_length_of_two_mem {α : Type} {x y : α} {l : List α}
    (hx : x ∈ l) (hy : y ∈ l) (hxy : x ≠ y) : 2 ≤ l.length := by
  cases l with
  | nil => simp at hx
  | cons a as =>
      cases as with
      | nil =>
          simp at hx hy
          rw [hx, hy] at hxy
          exact absurd rfl hxy
      | cons b bs => simp only [List.length_cons]; omega

theorem filter_range_ge (a : Nat) :
    ∀ L : Nat, a ≤ L →
    (List.range L).filter (fun d => decide (a ≤ d)) = List.range' a (L - a) := by
  intro L
  induction L with
  | zero =>
      intro h
      have ha : a = 0 := by omega
      simp [ha]
  | succ n ih =>
      intro h
      rw [List.range_succ, List.filter_append]
      by_cases ha : a ≤ n
      · rw [ih ha]
        have hd : decide (a ≤ n) = true := by simp [ha]
        simp only [List.filter_cons, List.filter_nil, hd]
        rw [show n + 1 - a = (n - a) + 1 from by omega, List.range'_1_concat,
          show a + (n - a) = n from by omega]
        simp
      · have han : a = n + 1 := by omega
        have h1 : (List.range n).filter (fun d => decide (a ≤ d)) = [] := by
          rw [List.filter_eq_nil_iff]
          intro d hd
          have := List.mem_range.mp hd
          simp only [decide_eq_true_eq]
          omega
        rw [h1]
        have hd : decide (a ≤ n) = false := by
          simp only [decide_eq_false_iff_not]
          omega
        simp only [List.filter_cons, List.filter_nil, hd]
        rw [han]
        simp

theorem filter_range'_lt (b : Nat) :
    ∀ (n s : Nat), s ≤ b → b ≤ s + n →
    (List.range' s n).filter (fun d => decide (d < b)) = List.range' s (b - s) := by
  intro n
  induction n with
  | zero =>
      intro s hsb hbs
      have hb : b = s := by omega
      simp [hb]
  | succ k ih =>
      intro s hsb hbs
      rw [List.range'_succ]
      by_cases hb : s < b
      · have hd : decide (s < b) = true := by simp [hb]
        simp only [List.filter_cons, hd]
        rw [ih (s + 1) (by omega) (by omega)]
        rw [show b - s = (b - (s + 1)) + 1 from by omega, List.range'_succ]
        simp
      · have hbs' : b = s := by omega
        have hd : decide (s < b) = false := by
          simp only [decide_eq_false_iff_not]
          omega
        simp only [List.filter_cons, hd]
        have hnil : (List.range' (s + 1) k).filter (fun d => decide (d < b)) = [] := by
          rw [List.filter_eq_nil_iff]
          intro d hd2
          have := List.mem_range'_1.mp hd2
          simp only [decide_eq_true_eq]
          omega
        rw [hnil, hbs']
        simp

theorem singleCutoff_daily_horizons (m : ProphetModel) (L : Nat) (v : Nat → ℚ)
    (c h : Int) (hc : 0 ≤ c) (hh : 0 ≤ h) (hch : c + h ≤ (L : Int) - 1) :
    (singleCutoffForecast m (dailySeries L v) c h).map
      (fun r => ((r.ds : Int) - r.cutoff, r.cutoff)) =
    (List.range h.toNat).map (fun j : Nat => ((j : Int) + 1, c)) := by
  unfold singleCutoffForecast dailySeries
  rw [List.filter_map]
  have hpred : ∀ d ∈ List.range L,
      ((fun r : Nat × ℚ => decide (c < (r.1 : Int)) && decide ((r.1 : Int) ≤ c + h)) ∘
        (fun d => (d, v d))) d =
      (fun d : Nat => decide (d < (c + h).toNat + 1) && decide (c.toNat + 1 ≤ d)) d := by
    intro d _
    simp only [Function.comp_def]
    have h1 : decide (c < (d : Int)) = decide (c.toNat + 1 ≤ d) := by
      rw [decide_eq_decide]; omega
    have h2 : decide ((d : Int) ≤ c + h) = decide (d < (c + h).toNat + 1) := by
      rw [decide_eq_decide]; omega
    rw [h1, h2, Bool.and_comm]
  rw [List.filter_congr hpred, ← List.filter_filter]
  rw [filter_range_ge (c.toNat + 1) L (by omega)]
  rw [filter_range'_lt ((c + h).toNat + 1) (L - (c.toNat + 1)) (c.toNat + 1)
    (by omega) (by omega)]
  rw [show (c + h).toNat + 1 - (c.toNat + 1) = h.toNat from by omega]
  rw [List.range'_eq_map_range]
  simp only [List.map_map]
  apply List.map_congr_left
  intro j _
  simp only [Function.comp_def, Prod.mk.injEq]
  refine ⟨by omega, trivial⟩

theorem foldlM_cv_ok (series : List (Nat × ℚ)) (horizon : Int) :
    ∀ (cs : List Int) (acc : List CvRow),
    (∀ c ∈ cs, 2 ≤ (series.filter (fun r => decide ((r.1 : Int) ≤ c))).length) →
    (cs.foldlM (fun acc c =>
      (prophetFit (series.filter (fun r => decide ((r.1 : Int) ≤ c)))).map
        (fun m => acc ++ singleCutoffForecast m series c horizon)) acc) =
    Except.ok (acc ++ cs.flatMap (fun c =>
      singleCutoffForecast
        (prophetModelOf (series.filter (fun r => decide ((r.1 : Int) ≤ c))))
        series c horizon)) := by
  intro cs
  induction cs with
  | nil => intro acc _; simp [List.foldlM, pure, Except.pure]
  | cons c cs ih =>
      intro acc hall
      have hfit : prophetFit (series.filter (fun r => decide ((r.1 : Int) ≤ c))) =
          Except.ok (prophetModelOf (series.filter (fun r => decide ((r.1 : Int) ≤ c)))) := by
        unfold prophetFit
        rw [if_neg (by have := hall c (List.mem_cons_self c cs); omega)]
      have ihh := ih (acc ++ singleCutoffForecast
        (prophetModelOf (series.filter (fun r => decide ((r.1 : Int) ≤ c))))
        series c horizon) (fun q hq => hall q (List.mem_cons_of_mem c hq))
      simp only [Except.map] at ihh
      simp only [List.foldlM_cons, hfit, Except.map]
      show Except.bind _ _ = _
      simp only [Except.bind]
      rw [ihh]
      simp [List.flatMap_cons, List.append_assoc]

theorem crossValidation_daily_ok (L : Nat) (v : Nat → ℚ)
    (horizon initial period : Int) (hL : 2 ≤ L) (hi : 1 ≤ initial) (cs : List Int)
    (hcs : generateCutoffs 0 ((L : Int) - 1) horizon initial period = Except.ok cs) :
    crossValidation (dailySeries L v) horizon initial period =
      Except.ok (cs.flatMap (fun c =>
        singleCutoffForecast
          (prophetModelOf ((dailySeries L v).filter (fun r => decide ((r.1 : Int) ≤ c))))
          (dailySeries L v) c horizon)) := by
  unfold crossValidation
  rw [minDate_dailySeries L v (by omega), maxDate_dailySeries L v (by omega),
    show ((0 : Nat) : Int) = 0 from rfl,
    show (((L - 1 : Nat)) : Int) = (L : Int) - 1 from by omega, hcs]
  have hbound := generateCutoffs_mem_lower 0 ((L : Int) - 1) horizon initial period cs hcs
  have hlen2 : ∀ c ∈ cs,
      2 ≤ ((dailySeries L v).filter (fun r => decide ((r.1 : Int) ≤ c))).length := by
    intro c hc
    have h1c : 1 ≤ c := by have := hbound c hc; omega
    have hm0 : ((0 : Nat), v 0) ∈
        (dailySeries L v).filter (fun r => decide ((r.1 : Int) ≤ c)) := by
      rw [List.mem_filter]
      constructor
      · unfold dailySeries
        exact List.mem_map.mpr ⟨0, List.mem_range.mpr (by omega), rfl⟩
      · simp only [decide_eq_true_eq]
        omega
    have hm1 : ((1 : Nat), v 1) ∈
        (dailySeries L v).filter (fun r => decide ((r.1 : Int) ≤ c)) := by
      rw [List.mem_filter]
      constructor
      · unfold dailySeries
        exact List.mem_map.mpr ⟨1, List.mem_range.mpr (by omega), rfl⟩
      · simp only [decide_eq_true_eq]
        omega
    exact two_le_length_of_two_mem hm0 hm1 (by simp)
  have hfold := foldlM_cv_ok (dailySeries L v) horizon cs [] hlen2
  simp only [List.nil_append] at hfold
  exact hfold

/-- C7 amended: the backtest fold structure with the fencepost the source
actually uses: the cutoff count is computed from the date span of the series
(series_length - 1), not from the series length, so a daily series of length
L is backtested with floor((L - 1 - initial - horizon) / period) + 1 folds
when L - 1 >= initial + horizon, the cutoffs are strictly ascending, and the
backtest raises an error whenever L - 1 < initial + horizon (in particular
whenever the series is shorter than initial + horizon); with the source
configuration (initial 1095, period 180, horizon 90) a 1500-day series is
evaluated in exactly 2 folds, with cutoffs 1229 and 1409, each recording the
horizon offsets 1..90. -/
theorem C7_backtest_folds_amended (L : Nat) (horizon initial period : Int)
    (v : Nat → ℚ) (hL : 1 ≤ L) (hp : 0 < period) (hh : 0 ≤ horizon) (hi : 0 ≤ initial) :
    ((L : Int) - 1 < horizon + initial →
      ∃ e, crossValidation (dailySeries L v) horizon initial period = Except.error e) ∧
    (horizon + initial ≤ (L : Int) - 1 →
      ∃ cs, generateCutoffs 0 ((L : Int) - 1) horizon initial period = Except.ok cs ∧
        cs.length = ((L : Int) - 1 - horizon - initial).toNat / period.toNat + 1 ∧
        List.Pairwise (fun a b : Int => a < b) cs) ∧
    ((crossValidation (dailySeries 1500 (fun _ => 0)) 90 1095 180).toOption.getD []).map
        (fun r => ((r.ds : Int) - r.cutoff, r.cutoff)) =
      (List.range 90).map (fun j : Nat => ((j : Int) + 1, (1229 : Int))) ++
        (List.range 90).map (fun j : Nat => ((j : Int) + 1, (1409 : Int))) := by
  refine ⟨?_, ?_, ?_⟩
  · intro hshort
    unfold crossValidation
    rw [minDate_dailySeries L v hL, maxDate_dailySeries L v hL]
    have hcast : ((L - 1 : Nat) : Int) = (L : Int) - 1 := by omega
    rcases (generateCutoffs_spec 0 ((L : Int) - 1) horizon initial period hp hh hi).1
      (by omega) with ⟨e, he⟩
    rw [show ((0 : Nat) : Int) = 0 from rfl, hcast, he]
    exact ⟨e, rfl⟩
  · intro hlong
    rcases (generateCutoffs_spec 0 ((L : Int) - 1) horizon initial period hp hh hi).2
      (by omega) with ⟨cs, hcs, hlen, hpw⟩
    refine ⟨cs, hcs, ?_, hpw⟩
    rw [hlen]
    simp
  · have hgc : generateCutoffs 0 ((1500 : Int) - 1) 90 1095 180 =
        Except.ok [1229, 1409] := by rfl
    rw [crossValidation_daily_ok 1500 (fun _ => 0) 90 1095 180 (by norm_num)
      (by norm_num) [1229, 1409] hgc]
    simp only [Except.toOption, Option.getD, List.flatMap_cons, List.flatMap_nil,
      List.append_nil, List.map_append]
    rw [singleCutoff_daily_horizons _ 1500 (fun _ => 0) 1229 90 (by norm_num)
        (by norm_num) (by norm_num),
      singleCutoff_daily_horizons _ 1500 (fun _ => 0) 1409 90 (by norm_num)
        (by norm_num) (by norm_num)]
    rw [show ((90 : Int).toNat) = 90 from rfl]

/-- Witness for the amended C7 at the source configuration on a 1500-day
series. -/
theorem C7_witness :
    (1 ≤ 1500) ∧ ((0 : Int) < 180) ∧ ((0 : Int) ≤ 90) ∧ ((0 : Int) ≤ 1095) ∧
    ((90 : Int) + 1095 ≤ (1500 : Int) - 1 →
      ∃ cs, generateCutoffs 0 ((1500 : Int) - 1) 90 1095 180 = Except.ok cs ∧
        cs.length = ((1500 : Int) - 1 - 90 - 1095).toNat / (180 : Int).toNat + 1 ∧
        List.Pairwise (fun a b : Int => a < b) cs) :=
  ⟨by norm_num, by norm_num, by norm_num, by norm_num,
   (C7_backtest_folds_amended 1500 90 1095 180 (fun _ => 0) (by norm_num)
     (by norm_num) (by norm_num) (by norm_num)).2.1⟩

/-- C7 counterexample: on a 1365-day daily series with the source
configuration the backtest evaluates a single fold (every df_cv row carries
the one cutoff 1274), while the claimed formula
floor((series_length - initial - horizon) / period) + 1 gives 2. -/
theorem C7_fold_count_counterexample :
    ((crossValidation (dailySeries 1365 (fun _ => 0)) 90 1095 180).toOption.getD []).map
        (fun r => r.cutoff) = List.replicate 90 (1274 : Int) ∧
    ((1365 : Int) - 1095 - 90) / 180 + 1 = 2 := by
  constructor
  · have hgc : generateCutoffs 0 ((1365 : Int) - 1) 90 1095 180 =
        Except.ok [1274] := by rfl
    rw [crossValidation_daily_ok 1365 (fun _ => 0) 90 1095 180 (by norm_num)
      (by norm_num) [1274] hgc]
    simp only [Except.toOption, Option.getD, List.flatMap_cons, List.flatMap_nil,
      List.append_nil]
    have hh := singleCutoff_daily_horizons
      (prophetModelOf ((dailySeries 1365 (fun _ => 0)).filter
        (fun r => decide ((r.1 : Int) ≤ 1274))))
      1365 (fun _ => 0) 1274 90 (by norm_num) (by norm_num) (by norm_num)
    have hsnd := congrArg (List.map Prod.snd) hh
    simp only [List.map_map, Function.comp_def] at hsnd
    rw [hsnd]
    rw [show ((90 : Int).toNat) = 90 from rfl, List.map_const', List.length_range]
  · norm_num

theorem scriptRun_noclick (df : List V2Row) (s : SessionState) :
    (scriptRun df false s).fst = s := by
  unfold scriptRun
  cases loadAndForecastData df with
  | error e => rfl
  | ok dfPair => rfl

/-- C9: the backtest is strictly on demand while the batch forecast is eager:
a session of reruns in which the trigger is never clicked leaves the backtest
state absent; a rerun without the trigger never changes the session state;
and every rerun, clicked or not, renders the batch forecast computed by
load_and_forecast_data. -/
theorem C9_backtest_on_demand (df : List V2Row) (s : SessionState) (clicked : Bool)
    (n : Nat) :
    runTrace df (List.replicate n false) = ⟨none⟩ ∧
    (scriptRun df false s).fst = s ∧
    (scriptRun df clicked s).snd.forecastShown =
      (loadAndForecastData df).toOption.map Prod.snd := by
  refine ⟨?_, scriptRun_noclick df s, ?_⟩
  · unfold runTrace
    induction n with
    | zero => rfl
    | succ k ih =>
        rw [List.replicate_succ, List.foldl_cons, scriptRun_noclick]
        exact ih
  · unfold scriptRun
    cases hld : loadAndForecastData df with
    | error e => rfl
    | ok dfPair => rfl

/-- C10: backtest noninterference: the backtest button handler depends only on
the store 1, item 1 rows of the dataset; two datasets agreeing on those rows
give identical backtest results, whatever store and item the user selected. -/
theorem C10_backtest_noninterference (df1 df2 : List V2Row) (s1 i1 s2 i2 : Nat)
    (h : df1.filter (fun r => r.store == 1 && r.item == 1) =
         df2.filter (fun r => r.store == 1 && r.item == 1)) :
    runBacktestingButton df1 s1 i1 = runBacktestingButton df2 s2 i2 := by
  unfold runBacktestingButton getBacktestMetrics seriesFor
  rw [h]

/-- Witness for C10: two datasets with no store 1, item 1 rows at all. -/
theorem C10_witness :
    (([⟨0, 2, 1, 5⟩] : List V2Row).filter (fun r => r.store == 1 && r.item == 1) =
      ([] : List V2Row).filter (fun r => r.store == 1 && r.item == 1)) ∧
    runBacktestingButton [⟨0, 2, 1, 5⟩] 3 4 = runBacktestingButton [] 5 6 :=
  ⟨by decide, C10_backtest_noninterference [⟨0, 2, 1, 5⟩] [] 3 4 5 6 (by decide)⟩

end EcomForecast
